import Mathlib

/-!
# Logic Driver entitlement gate (`FSMAuthenticator`) and `ViewSystemInfo`

A shallow embedding of

* `Plugins/LogicDriver/Source/SMSystem/Public/Misc/SMAuthenticator.h`
  (`FSMAuthenticator::Authenticate`, `FSMAuthenticator::IsAuthenticated`), and
* `Plugins/LogicDriver/Source/SMUtilityLauncher/Private/SMUtilityLauncherModule.cpp`
  (`FSMUtilityLauncherModule::ViewSystemInfo`).

The C++ code is stateful: it has one process-wide `FSMAuthenticator`, it calls into
the engine (`IPluginWardenModule`, `GEditor`, the timer manager, Slate) and it runs
caller-supplied delegates.  The embedding is explicit state passing over a `Process`
record holding the singleton, the state of the host the delegates act on, and a
chronological trace of the observable calls.

Engine code is not part of the repository.  The one engine behaviour the gate depends
on, how often `CheckEntitlementForPlugin` fires its authorized callback, is a
parameter (`fires`) of every definition that reaches it.

Scope of the model:

* an engine check is resolved when `CheckEntitlementForPlugin` returns: the callback
  firings it causes happen inside the call;
* a delegate acts on the host state only; it cannot write the private member
  `bIsAuthenticated`, and delegates that call back into the gate are not modelled;
* everything runs on one thread, as the code assumes.
-/

namespace LogicDriver

/-! ## Build configuration -/

/-- The preprocessor symbols tested by `FSMAuthenticator::IsAuthenticated`. -/
structure BuildConfig where
  PLATFORM_WINDOWS : Bool
  PLATFORM_MAC : Bool
  LOGICDRIVER_IS_MARKETPLACE_BUILD : Bool
  deriving DecidableEq, Repr

/-- The condition of the `#if` in `IsAuthenticated` (SMAuthenticator.h line 52):
`(PLATFORM_WINDOWS || PLATFORM_MAC) && LOGICDRIVER_IS_MARKETPLACE_BUILD`. -/
def BuildConfig.restricted (cfg : BuildConfig) : Bool :=
  (cfg.PLATFORM_WINDOWS || cfg.PLATFORM_MAC) && cfg.LOGICDRIVER_IS_MARKETPLACE_BUILD

/-- The override predicate of the specification: the negation of the `#if` condition,
that is, the configurations compiled through the `#else` branch. -/
def BuildConfig.override (cfg : BuildConfig) : Bool :=
  !((cfg.PLATFORM_WINDOWS || cfg.PLATFORM_MAC) && cfg.LOGICDRIVER_IS_MARKETPLACE_BUILD)

/-! ## Observable calls -/

/-- Mirror of `IPluginWardenModule::EUnauthorizedErrorHandling`; only the enumerator
used by the gate is needed. -/
inductive EUnauthorizedErrorHandling where
  | ShowMessageOpenStore
  deriving DecidableEq, Repr

/-- The calls leaving the gate that the properties talk about. -/
inductive Event where
  /-- One call of `IPluginWardenModule::CheckEntitlementForPlugin` with its arguments. -/
  | CheckEntitlementForPlugin (PluginFriendlyName PluginItemId PluginOfferId
      UnauthorizedMessageOverride : String)
      (UnauthorizedErrorHandling : EUnauthorizedErrorHandling)
  /-- One execution of the bound delegate with the given identity. -/
  | Execute (delegateId : Nat)
  deriving DecidableEq, Repr

/-- Whether an event is a call of the engine entitlement service. -/
def Event.isCheck : Event → Bool
  | .CheckEntitlementForPlugin _ _ _ _ _ => true
  | .Execute _ => false

/-- Whether an event is an execution of the delegate `delegateId`. -/
def Event.isExecuteOf (delegateId : Nat) : Event → Bool
  | .CheckEntitlementForPlugin _ _ _ _ _ => false
  | .Execute i => i == delegateId

/-- Number of `CheckEntitlementForPlugin` calls recorded in a trace. -/
def wardenCalls (trace : List Event) : Nat :=
  trace.countP Event.isCheck

/-- Number of executions of the delegate `delegateId` recorded in a trace. -/
def executionsOf (delegateId : Nat) (trace : List Event) : Nat :=
  trace.countP (Event.isExecuteOf delegateId)

/-! ## Data model -/

/-- The data member of `class FSMAuthenticator` (line 60): `bool bIsAuthenticated = false;`. -/
structure FSMAuthenticator where
  bIsAuthenticated : Bool := false
  deriving DecidableEq, Repr

/-- An `FSimpleDelegate` over a host state `W`: either unbound, or bound to a callable.
The callable acts on the host only: `bIsAuthenticated` is a private member that no code
outside the class can write.  `delegateId` names the delegate in the trace. -/
inductive FSimpleDelegate (W : Type) where
  | unbound
  | bound (delegateId : Nat) (callee : W → W)

/-- The state the code runs in: the singleton returned by `FSMAuthenticator::Get()`,
the host state the delegates act on, and the trace of observable calls, oldest first. -/
structure Process (W : Type) where
  Authenticator : FSMAuthenticator
  host : W
  trace : List Event

/-- The state at the first use of `FSMAuthenticator::Get()`: the function-local static is
default constructed, so the flag is `false`. -/
def Process.fresh {W : Type} (host : W) : Process W :=
  { Authenticator := {}, host := host, trace := [] }

/-! ## Operations -/

/-- Embedding of `FSimpleDelegate::ExecuteIfBound`: runs the callable when there is one. -/
def ExecuteIfBound {W : Type} (d : FSimpleDelegate W) (p : Process W) : Process W :=
  match d with
  | .unbound => p
  | .bound delegateId callee =>
      { p with host := callee p.host, trace := p.trace ++ [Event.Execute delegateId] }

/-- Embedding of `FSMAuthenticator::IsAuthenticated` (lines 50-57). -/
def IsAuthenticated (cfg : BuildConfig) (self : FSMAuthenticator) : Bool :=
  if (cfg.PLATFORM_WINDOWS || cfg.PLATFORM_MAC) && cfg.LOGICDRIVER_IS_MARKETPLACE_BUILD then
    self.bIsAuthenticated
  else
    true

/-- The engine call `IPluginWardenModule::Get().CheckEntitlementForPlugin(...)`.  The
engine is outside the repository; what it does with the callback is the parameter
`fires`, the number of times it invokes `AuthorizedCallback` before returning
(`0`: the check did not succeed, `1`: it succeeded). -/
def CheckEntitlementForPlugin {W : Type} (fires : Nat)
    (PluginFriendlyName PluginItemId PluginOfferId UnauthorizedMessageOverride : String)
    (UnauthorizedErrorHandling : EUnauthorizedErrorHandling)
    (AuthorizedCallback : Process W → Process W) (p : Process W) : Process W :=
  Nat.iterate AuthorizedCallback fires
    { p with trace := p.trace ++ [Event.CheckEntitlementForPlugin PluginFriendlyName
        PluginItemId PluginOfferId UnauthorizedMessageOverride UnauthorizedErrorHandling] }

/-- Embedding of `FSMAuthenticator::Authenticate` (lines 29-48). -/
def Authenticate {W : Type} (cfg : BuildConfig) (fires : Nat)
    (InOnAuthenticatedDelegate : FSimpleDelegate W) (p : Process W) : Process W :=
  if IsAuthenticated cfg p.Authenticator then
    ExecuteIfBound InOnAuthenticatedDelegate p
  else
    let CatalogItem := "819543009be949c5b2d40236adcb8166"
    let PluginGuid := "9d8db9962594400988f8ddd3fb83cd88"
    CheckEntitlementForPlugin fires "Logic Driver Pro" CatalogItem PluginGuid
      "You are not authorized to use Logic Driver Pro. Marketplace plugin licenses are per-seat.\nWould you like to view the store page?"
      EUnauthorizedErrorHandling.ShowMessageOpenStore
      (fun q =>
        ExecuteIfBound InOnAuthenticatedDelegate
          { q with Authenticator := { q.Authenticator with bIsAuthenticated := true } })
      p

/-- `IsAuthenticated` as an operation on the process: the value it returns and the
process state it leaves (the method is `const`). -/
def queryIsAuthenticated {W : Type} (cfg : BuildConfig) (p : Process W) : Bool × Process W :=
  (IsAuthenticated cfg p.Authenticator, p)

/-! ## Sequences of operations -/

/-- The public operations of `FSMAuthenticator`.  An `Authenticate` call carries the
delegate it is given and what the engine service does if that call reaches it. -/
inductive Op (W : Type) where
  | Authenticate (fires : Nat) (InOnAuthenticatedDelegate : FSimpleDelegate W)
  | IsAuthenticated

/-- The process state after one operation. -/
def Op.run {W : Type} (cfg : BuildConfig) (op : Op W) (p : Process W) : Process W :=
  match op with
  | .Authenticate fires d => LogicDriver.Authenticate cfg fires d p
  | .IsAuthenticated => (queryIsAuthenticated cfg p).2

/-- The process state after a sequence of operations, run one after the other. -/
def runOps {W : Type} (cfg : BuildConfig) (ops : List (Op W)) (p : Process W) : Process W :=
  ops.foldl (fun q op => op.run cfg q) p

/-- A sequence of `Authenticate` calls, each resolved before the next one is made.  Every
call is a pair: what the engine service does if this call reaches it, and the delegate. -/
def AuthenticateAll {W : Type} (cfg : BuildConfig) (calls : List (Nat × FSimpleDelegate W))
    (p : Process W) : Process W :=
  calls.foldl (fun q c => Authenticate cfg c.1 c.2 q) p

/-- What one invocation of a delegate does to the host: the bound callable applied once,
nothing for an unbound delegate. -/
def FSimpleDelegate.invoke {W : Type} : FSimpleDelegate W → W → W
  | .unbound => fun w => w
  | .bound _ callee => callee

/-- What one invocation of a delegate adds to the trace: one `Execute` entry naming a
bound delegate, nothing for an unbound one. -/
def FSimpleDelegate.executions {W : Type} : FSimpleDelegate W → List Event
  | .unbound => []
  | .bound delegateId _ => [Event.Execute delegateId]

/-! ## `FSMUtilityLauncherModule::ViewSystemInfo` -/

/-- What `ViewSystemInfo` uses of the object behind `GEditor`:
the answer of `IsTimerManagerValid()`. -/
structure UEditorEngine where
  bTimerManagerValid : Bool
  deriving DecidableEq, Repr

/-- The callables handed to `SetTimerForNextTick`: the only one in this module is the
lambda of lines 180-191. -/
inductive FTimerCallback where
  | ShowSupportDialog
  deriving DecidableEq, Repr

/-- The modal windows the module opens: the `SSMSupportDialog` built at lines 187-189. -/
inductive SWindow where
  | SSMSupportDialog
  deriving DecidableEq, Repr

/-- The part of the editor `ViewSystemInfo` acts on: the global `GEditor` (null or an
engine), the callables set for the next tick and not yet run, and the modal windows
opened so far. -/
structure EditorHost where
  GEditor : Option UEditorEngine
  NextTickTimers : List FTimerCallback
  ModalWindows : List SWindow
  deriving DecidableEq, Repr

/-- The lambda given to `SetTimerForNextTick` (lines 180-191): when `GEditor` is non-null
it builds the `SSMSupportDialog` and adds it as a modal window. -/
def ShowSupportDialog (h : EditorHost) : EditorHost :=
  match h.GEditor with
  | some _ => { h with ModalWindows := h.ModalWindows ++ [SWindow.SSMSupportDialog] }
  | none => h

/-- The body of a callable set for the next tick. -/
def FTimerCallback.call : FTimerCallback → EditorHost → EditorHost
  | .ShowSupportDialog => LogicDriver.ShowSupportDialog

/-- The engine running the next tick: the callables set for it are taken off the timer
manager and called in order. -/
def Tick (h : EditorHost) : EditorHost :=
  h.NextTickTimers.foldl (fun q t => t.call q) { h with NextTickTimers := [] }

/-- The body of the delegate created in `ViewSystemInfo` (lines 175-193): when `GEditor`
is non-null and its timer manager is valid, set the dialog lambda for the next tick. -/
def OnAuthenticated (h : EditorHost) : EditorHost :=
  match h.GEditor with
  | some Editor =>
      if Editor.bTimerManagerValid then
        { h with NextTickTimers := h.NextTickTimers ++ [FTimerCallback.ShowSupportDialog] }
      else
        h
  | none => h

/-- The identity under which the delegate of `ViewSystemInfo` appears in the trace. -/
def ViewSystemInfoDelegateId : Nat := 0

/-- Embedding of `FSMUtilityLauncherModule::ViewSystemInfo` (lines 173-194). -/
def ViewSystemInfo (cfg : BuildConfig) (fires : Nat) (p : Process EditorHost) :
    Process EditorHost :=
  Authenticate cfg fires (FSimpleDelegate.bound ViewSystemInfoDelegateId OnAuthenticated) p

/-! ## Auxiliary facts -/

/-- The trace entry of the engine call made by `Authenticate` (lines 40-43): the plugin
name, the two product identifiers, the message for the unauthorized case and the
error-handling policy. -/
def EntitlementCheck : Event :=
  Event.CheckEntitlementForPlugin "Logic Driver Pro" "819543009be949c5b2d40236adcb8166"
    "9d8db9962594400988f8ddd3fb83cd88"
    "You are not authorized to use Logic Driver Pro. Marketplace plugin licenses are per-seat.\nWould you like to view the store page?"
    EUnauthorizedErrorHandling.ShowMessageOpenStore

/-- The callback `Authenticate` hands to the engine service (the lambda of lines 43-47). -/
def AuthorizedCallback {W : Type} (d : FSimpleDelegate W) (q : Process W) : Process W :=
  ExecuteIfBound d { q with Authenticator := { q.Authenticator with bIsAuthenticated := true } }

theorem wardenCalls_append (t u : List Event) :
    wardenCalls (t ++ u) = wardenCalls t + wardenCalls u := by
  simp [wardenCalls, List.countP_append]

theorem executionsOf_append (i : Nat) (t u : List Event) :
    executionsOf i (t ++ u) = executionsOf i t + executionsOf i u := by
  simp [executionsOf, List.countP_append]

theorem ExecuteIfBound_flag {W : Type} (d : FSimpleDelegate W) (p : Process W) :
    (ExecuteIfBound d p).Authenticator = p.Authenticator := by
  cases d <;> rfl

theorem ExecuteIfBound_wardenCalls {W : Type} (d : FSimpleDelegate W) (p : Process W) :
    wardenCalls (ExecuteIfBound d p).trace = wardenCalls p.trace := by
  cases d
  · rfl
  · simp [ExecuteIfBound, wardenCalls_append, wardenCalls, Event.isCheck, EntitlementCheck]

theorem Authenticate_of_authenticated {W : Type} (cfg : BuildConfig) (fires : Nat)
    (d : FSimpleDelegate W) (p : Process W) (h : IsAuthenticated cfg p.Authenticator = true) :
    Authenticate cfg fires d p = ExecuteIfBound d p := by
  simp [Authenticate, h]

theorem Authenticate_of_unauthenticated {W : Type} (cfg : BuildConfig) (fires : Nat)
    (d : FSimpleDelegate W) (p : Process W) (h : IsAuthenticated cfg p.Authenticator = false) :
    Authenticate cfg fires d p =
      Nat.iterate (AuthorizedCallback d) fires
        { p with trace := p.trace ++ [EntitlementCheck] } := by
  simp [Authenticate, h, CheckEntitlementForPlugin]
  rfl

theorem iterate_callback_flag {W : Type} (d : FSimpleDelegate W) (n : Nat) (q : Process W) :
    (Nat.iterate (AuthorizedCallback d) n q).Authenticator.bIsAuthenticated
      = (q.Authenticator.bIsAuthenticated || decide (0 < n)) := by
  induction n with
  | zero => simp
  | succ k _ =>
      rw [Function.iterate_succ_apply']
      simp [AuthorizedCallback, ExecuteIfBound_flag]

theorem iterate_callback_wardenCalls {W : Type} (d : FSimpleDelegate W) (n : Nat)
    (q : Process W) :
    wardenCalls (Nat.iterate (AuthorizedCallback d) n q).trace = wardenCalls q.trace := by
  induction n with
  | zero => rfl
  | succ k ih =>
      rw [Function.iterate_succ_apply']
      simp only [AuthorizedCallback, ExecuteIfBound_wardenCalls]
      exact ih

theorem iterate_callback_executionsOf {W : Type} (i : Nat) (f : W → W) (n : Nat)
    (q : Process W) :
    executionsOf i (Nat.iterate (AuthorizedCallback (FSimpleDelegate.bound i f)) n q).trace
      = executionsOf i q.trace + n := by
  induction n with
  | zero => rfl
  | succ k ih =>
      rw [Function.iterate_succ_apply']
      simp only [AuthorizedCallback, ExecuteIfBound, executionsOf_append]
      rw [ih]
      simp [executionsOf, Event.isExecuteOf, Nat.add_assoc]

theorem iterate_callback_host {W : Type} (i : Nat) (f : W → W) (n : Nat) (q : Process W) :
    (Nat.iterate (AuthorizedCallback (FSimpleDelegate.bound i f)) n q).host
      = Nat.iterate f n q.host := by
  induction n with
  | zero => rfl
  | succ k ih =>
      rw [Function.iterate_succ_apply', Function.iterate_succ_apply']
      simp only [AuthorizedCallback, ExecuteIfBound]
      rw [ih]

theorem IsAuthenticated_of_flag (cfg : BuildConfig) (g : FSMAuthenticator)
    (h : g.bIsAuthenticated = true) : IsAuthenticated cfg g = true := by
  simp [IsAuthenticated, h]

theorem flag_of_not_IsAuthenticated (cfg : BuildConfig) (g : FSMAuthenticator)
    (h : IsAuthenticated cfg g = false) :
    cfg.restricted = true ∧ g.bIsAuthenticated = false := by
  unfold IsAuthenticated at h
  unfold BuildConfig.restricted
  split at h
  · exact ⟨by assumption, h⟩
  · exact absurd h (by decide)

/-- The flag after `Authenticate`, for every configuration, delegate and engine outcome. -/
theorem Authenticate_flag {W : Type} (cfg : BuildConfig) (fires : Nat)
    (d : FSimpleDelegate W) (p : Process W) :
    (Authenticate cfg fires d p).Authenticator.bIsAuthenticated
      = (p.Authenticator.bIsAuthenticated
          || (!IsAuthenticated cfg p.Authenticator && decide (0 < fires))) := by
  cases h : IsAuthenticated cfg p.Authenticator
  · rw [Authenticate_of_unauthenticated cfg fires d p h, iterate_callback_flag]
    simp
  · rw [Authenticate_of_authenticated cfg fires d p h, ExecuteIfBound_flag]
    simp

/-- The number of engine checks after `Authenticate`: one more when the gate reported
unauthenticated, none otherwise. -/
theorem Authenticate_wardenCalls {W : Type} (cfg : BuildConfig) (fires : Nat)
    (d : FSimpleDelegate W) (p : Process W) :
    wardenCalls (Authenticate cfg fires d p).trace
      = wardenCalls p.trace + (if IsAuthenticated cfg p.Authenticator then 0 else 1) := by
  cases h : IsAuthenticated cfg p.Authenticator
  · rw [Authenticate_of_unauthenticated cfg fires d p h, iterate_callback_wardenCalls]
    simp [wardenCalls_append, wardenCalls, Event.isCheck, EntitlementCheck]
  · rw [Authenticate_of_authenticated cfg fires d p h, ExecuteIfBound_wardenCalls]
    simp

theorem Op_run_flag_true {W : Type} (cfg : BuildConfig) (op : Op W) (p : Process W)
    (h : p.Authenticator.bIsAuthenticated = true) :
    (op.run cfg p).Authenticator.bIsAuthenticated = true := by
  cases op with
  | Authenticate fires d =>
      show (Authenticate cfg fires d p).Authenticator.bIsAuthenticated = true
      rw [Authenticate_flag, h]
      rfl
  | IsAuthenticated => exact h

theorem runOps_flag_true {W : Type} (cfg : BuildConfig) (ops : List (Op W)) :
    ∀ p : Process W, p.Authenticator.bIsAuthenticated = true →
      (runOps cfg ops p).Authenticator.bIsAuthenticated = true := by
  induction ops with
  | nil => intro p h; exact h
  | cons op rest ih =>
      intro p h
      exact ih (op.run cfg p) (Op_run_flag_true cfg op p h)

theorem runOps_append {W : Type} (cfg : BuildConfig) (xs ys : List (Op W)) (p : Process W) :
    runOps cfg (xs ++ ys) p = runOps cfg ys (runOps cfg xs p) := by
  simp [runOps, List.foldl_append]

theorem IsAuthenticated_restricted (cfg : BuildConfig) (g : FSMAuthenticator)
    (h : cfg.restricted = true) : IsAuthenticated cfg g = g.bIsAuthenticated := by
  unfold BuildConfig.restricted at h
  simp [IsAuthenticated, h]

theorem IsAuthenticated_override (cfg : BuildConfig) (g : FSMAuthenticator)
    (h : cfg.override = true) : IsAuthenticated cfg g = true := by
  obtain ⟨w, m, b⟩ := cfg
  revert h
  cases w <;> cases m <;> cases b <;> simp [BuildConfig.override, IsAuthenticated]

theorem AuthenticateAll_append {W : Type} (cfg : BuildConfig)
    (xs ys : List (Nat × FSimpleDelegate W)) (p : Process W) :
    AuthenticateAll cfg (xs ++ ys) p = AuthenticateAll cfg ys (AuthenticateAll cfg xs p) := by
  simp [AuthenticateAll, List.foldl_append]

theorem AuthenticateAll_cons {W : Type} (cfg : BuildConfig)
    (c : Nat × FSimpleDelegate W) (cs : List (Nat × FSimpleDelegate W)) (p : Process W) :
    AuthenticateAll cfg (c :: cs) p = AuthenticateAll cfg cs (Authenticate cfg c.1 c.2 p) :=
  rfl

/-- On the restricted configuration the flag after a run of calls is true exactly when it
was true before or some call of the run had a successful check. -/
theorem AuthenticateAll_flag_restricted {W : Type} (cfg : BuildConfig)
    (h : cfg.restricted = true) (calls : List (Nat × FSimpleDelegate W)) :
    ∀ p : Process W,
      (AuthenticateAll cfg calls p).Authenticator.bIsAuthenticated
        = (p.Authenticator.bIsAuthenticated || calls.any (fun c => decide (0 < c.1))) := by
  induction calls with
  | nil => intro p; simp [AuthenticateAll]
  | cons c cs ih =>
      intro p
      rw [AuthenticateAll_cons, ih, Authenticate_flag, IsAuthenticated_restricted cfg _ h]
      cases p.Authenticator.bIsAuthenticated <;> simp

/-- Once the flag is true a run of calls makes no engine check. -/
theorem AuthenticateAll_wardenCalls_of_flag {W : Type} (cfg : BuildConfig)
    (calls : List (Nat × FSimpleDelegate W)) :
    ∀ p : Process W, p.Authenticator.bIsAuthenticated = true →
      wardenCalls (AuthenticateAll cfg calls p).trace = wardenCalls p.trace := by
  induction calls with
  | nil => intro p _; rfl
  | cons c cs ih =>
      intro p hp
      have hflag : (Authenticate cfg c.1 c.2 p).Authenticator.bIsAuthenticated = true := by
        rw [Authenticate_flag, hp]; rfl
      rw [AuthenticateAll_cons, ih _ hflag, Authenticate_wardenCalls,
        IsAuthenticated_of_flag cfg _ hp]
      rfl

/-- On the restricted configuration, while the flag is false and no check succeeds,
every call of a run makes one engine check. -/
theorem AuthenticateAll_wardenCalls_of_no_success {W : Type} (cfg : BuildConfig)
    (h : cfg.restricted = true) (calls : List (Nat × FSimpleDelegate W)) :
    ∀ p : Process W, p.Authenticator.bIsAuthenticated = false →
      (∀ c ∈ calls, c.1 = 0) →
      wardenCalls (AuthenticateAll cfg calls p).trace = wardenCalls p.trace + calls.length := by
  induction calls with
  | nil => intro p _ _; rfl
  | cons c cs ih =>
      intro p hp hall
      have hc : c.1 = 0 := hall c (List.mem_cons_self c cs)
      have hq : IsAuthenticated cfg p.Authenticator = false := by
        rw [IsAuthenticated_restricted cfg _ h, hp]
      have hflag : (Authenticate cfg c.1 c.2 p).Authenticator.bIsAuthenticated = false := by
        rw [Authenticate_flag, hp, hc]; simp
      rw [AuthenticateAll_cons, ih _ hflag (fun x hx => hall x (List.mem_cons_of_mem c hx)),
        Authenticate_wardenCalls, hq]
      simp only [List.length_cons, Bool.false_eq_true, if_false]
      omega

/-- Summary of one `Authenticate` call with a bound delegate: the delegate ran some
number `k` of times, `k` is what the engine fired when the gate reported unauthenticated,
and once it ran the gate reports authenticated. -/
theorem Authenticate_bound_summary {W : Type} (cfg : BuildConfig) (fires i : Nat)
    (f : W → W) (p : Process W) :
    ∃ k : Nat,
      (Authenticate cfg fires (FSimpleDelegate.bound i f) p).host = Nat.iterate f k p.host
      ∧ executionsOf i (Authenticate cfg fires (FSimpleDelegate.bound i f) p).trace
          = executionsOf i p.trace + k
      ∧ (0 < k →
          IsAuthenticated cfg (Authenticate cfg fires (FSimpleDelegate.bound i f) p).Authenticator
            = true)
      ∧ (IsAuthenticated cfg p.Authenticator = false → k = fires) := by
  cases h : IsAuthenticated cfg p.Authenticator
  · refine ⟨fires, ?_, ?_, ?_, fun _ => rfl⟩
    · rw [Authenticate_of_unauthenticated cfg fires _ p h, iterate_callback_host]
    · rw [Authenticate_of_unauthenticated cfg fires _ p h, iterate_callback_executionsOf]
      simp [executionsOf_append, executionsOf, Event.isExecuteOf, EntitlementCheck]
    · intro hk
      apply IsAuthenticated_of_flag
      rw [Authenticate_flag, h]
      simp [hk]
  · refine ⟨1, ?_, ?_, ?_, fun hc => absurd hc (by simp)⟩
    · rw [Authenticate_of_authenticated cfg fires _ p h]
      rfl
    · rw [Authenticate_of_authenticated cfg fires _ p h]
      simp [ExecuteIfBound, executionsOf_append, executionsOf, Event.isExecuteOf, EntitlementCheck]
    · intro _
      rw [Authenticate_of_authenticated cfg fires _ p h, ExecuteIfBound_flag]
      exact h

theorem OnAuthenticated_frame (h : EditorHost) :
    (OnAuthenticated h).GEditor = h.GEditor
    ∧ (OnAuthenticated h).ModalWindows = h.ModalWindows := by
  unfold OnAuthenticated
  split
  · split <;> exact ⟨rfl, rfl⟩
  · exact ⟨rfl, rfl⟩

theorem iterate_OnAuthenticated_frame (k : Nat) (h : EditorHost) :
    (Nat.iterate OnAuthenticated k h).GEditor = h.GEditor
    ∧ (Nat.iterate OnAuthenticated k h).ModalWindows = h.ModalWindows := by
  induction k with
  | zero => exact ⟨rfl, rfl⟩
  | succ n ih =>
      rw [Function.iterate_succ_apply']
      exact ⟨(OnAuthenticated_frame _).1.trans ih.1, (OnAuthenticated_frame _).2.trans ih.2⟩

/-- When `GEditor` is null or its timer manager is not valid the delegate body of
`ViewSystemInfo` changes nothing, however often it runs. -/
theorem iterate_OnAuthenticated_of_not_valid (k : Nat) (h : EditorHost)
    (hn : ¬ ∃ e, h.GEditor = some e ∧ e.bTimerManagerValid = true) :
    Nat.iterate OnAuthenticated k h = h := by
  apply Function.iterate_fixed
  unfold OnAuthenticated
  split
  · rename_i e he
    split
    · rename_i hv
      exact absurd ⟨e, he, hv⟩ hn
    · rfl
  · rfl

/-- With `GEditor` null at the tick, the callables set for it open no window. -/
theorem Tick_ModalWindows_of_null (h : EditorHost) :
    (Tick { h with GEditor := none }).ModalWindows = h.ModalWindows := by
  have key : ∀ (ts : List FTimerCallback) (q : EditorHost), q.GEditor = none →
      ts.foldl (fun q t => t.call q) q = q := by
    intro ts
    induction ts with
    | nil => intro q _; rfl
    | cons t rest ih =>
        intro q hq
        have hstep : t.call q = q := by
          cases t
          simp [FTimerCallback.call, ShowSupportDialog, hq]
        rw [List.foldl_cons, hstep]
        exact ih q hq
  unfold Tick
  rw [key _ _ rfl]

/-! ## The claims -/

/-- C1: in every gate state whose sticky flag `bIsAuthenticated` is true, for every build
configuration, every delegate and whatever the engine service would do, `Authenticate`
is exactly the synchronous `ExecuteIfBound` of the delegate: a bound continuation has
been applied to the host and recorded once at the end of the trace when the call
returns, the number of `CheckEntitlementForPlugin` calls is unchanged, and the flag is
still true. -/
theorem C1_authenticated_runs_continuation_without_check {W : Type} (cfg : BuildConfig)
    (fires : Nat) (d : FSimpleDelegate W) (p : Process W)
    (h : p.Authenticator.bIsAuthenticated = true) :
    Authenticate cfg fires d p = ExecuteIfBound d p
    ∧ (∀ (i : Nat) (f : W → W), d = FSimpleDelegate.bound i f →
        (Authenticate cfg fires d p).host = f p.host
        ∧ (Authenticate cfg fires d p).trace = p.trace ++ [Event.Execute i])
    ∧ wardenCalls (Authenticate cfg fires d p).trace = wardenCalls p.trace
    ∧ (Authenticate cfg fires d p).Authenticator.bIsAuthenticated = true := by
  have hq := IsAuthenticated_of_flag cfg p.Authenticator h
  have he := Authenticate_of_authenticated cfg fires d p hq
  refine ⟨he, ?_, ?_, ?_⟩
  · intro i f hd
    subst hd
    rw [he]
    exact ⟨rfl, rfl⟩
  · rw [he, ExecuteIfBound_wardenCalls]
  · rw [he, ExecuteIfBound_flag]
    exact h

/-- Witness of C1: a restricted build, flag true, host state `5`, a continuation that adds
one, and an engine service that would not fire its callback. -/
theorem C1_witness :
    Authenticate ⟨true, false, true⟩ 0 (FSimpleDelegate.bound 3 (fun n : Nat => n + 1))
        ⟨⟨true⟩, 5, []⟩
      = ExecuteIfBound (FSimpleDelegate.bound 3 (fun n : Nat => n + 1)) ⟨⟨true⟩, 5, []⟩
    ∧ (∀ (i : Nat) (f : Nat → Nat),
        FSimpleDelegate.bound 3 (fun n : Nat => n + 1) = FSimpleDelegate.bound i f →
        (Authenticate ⟨true, false, true⟩ 0 (FSimpleDelegate.bound 3 (fun n : Nat => n + 1))
            ⟨⟨true⟩, 5, []⟩).host = f 5
        ∧ (Authenticate ⟨true, false, true⟩ 0 (FSimpleDelegate.bound 3 (fun n : Nat => n + 1))
            ⟨⟨true⟩, 5, []⟩).trace = [] ++ [Event.Execute i])
    ∧ wardenCalls (Authenticate ⟨true, false, true⟩ 0
        (FSimpleDelegate.bound 3 (fun n : Nat => n + 1)) ⟨⟨true⟩, 5, []⟩).trace
        = wardenCalls []
    ∧ (Authenticate ⟨true, false, true⟩ 0 (FSimpleDelegate.bound 3 (fun n : Nat => n + 1))
        ⟨⟨true⟩, 5, []⟩).Authenticator.bIsAuthenticated = true :=
  C1_authenticated_runs_continuation_without_check ⟨true, false, true⟩ 0
    (FSimpleDelegate.bound 3 (fun n : Nat => n + 1)) ⟨⟨true⟩, 5, []⟩ rfl

/-- C2 as stated fails: on a build where the override holds (Windows, not a marketplace
build) a fresh gate with the flag false makes no `CheckEntitlementForPlugin` call at all
when `Authenticate` is called, although the engine service would have succeeded. -/
theorem C2_counterexample_override_build_makes_no_check :
    (Process.fresh ()).Authenticator.bIsAuthenticated = false
    ∧ wardenCalls (Authenticate ⟨true, false, false⟩ 1 (FSimpleDelegate.bound 0 id)
        (Process.fresh ())).trace = 0
    ∧ ¬ wardenCalls (Authenticate ⟨true, false, false⟩ 1 (FSimpleDelegate.bound 0 id)
        (Process.fresh ())).trace = 1 := by
  decide

/-- C2, amended: on the restricted configuration (the `#if` condition of `IsAuthenticated`
holds), one `Authenticate` call on a fresh gate makes exactly one
`CheckEntitlementForPlugin` call, for every delegate and every engine outcome. -/
theorem C2_fresh_gate_restricted_build_one_check {W : Type} (cfg : BuildConfig) (fires : Nat)
    (d : FSimpleDelegate W) (host : W) (h : cfg.restricted = true) :
    wardenCalls (Authenticate cfg fires d (Process.fresh host)).trace = 1 := by
  have hq : IsAuthenticated cfg (Process.fresh host).Authenticator = false := by
    unfold BuildConfig.restricted at h
    simp [IsAuthenticated, h, Process.fresh]
  rw [Authenticate_wardenCalls, hq]
  rfl

/-- Witness of the amended C2: a Mac marketplace build, a successful check. -/
theorem C2_witness :
    BuildConfig.restricted ⟨false, true, true⟩ = true
    ∧ wardenCalls (Authenticate ⟨false, true, true⟩ 1 (FSimpleDelegate.bound 0 id)
        (Process.fresh ())).trace = 1 :=
  ⟨rfl, C2_fresh_gate_restricted_build_one_check ⟨false, true, true⟩ 1
    (FSimpleDelegate.bound 0 id) () rfl⟩

/-- C3: when `Authenticate` is called while `IsAuthenticated()` is false and the engine
service fires its authorized callback once, then on return the flag is true, it is true
after every further sequence of gate operations, the continuation has been executed
exactly once (one more execution in the trace, the host is the continuation applied once),
and exactly one engine check was made: the trace has grown by that check followed by
the execution. -/
theorem C3_success_sets_flag_and_runs_continuation_once {W : Type} (cfg : BuildConfig)
    (i : Nat) (f : W → W) (p : Process W)
    (h : IsAuthenticated cfg p.Authenticator = false) :
    (Authenticate cfg 1 (FSimpleDelegate.bound i f) p).Authenticator.bIsAuthenticated = true
    ∧ (∀ ops : List (Op W),
        (runOps cfg ops (Authenticate cfg 1 (FSimpleDelegate.bound i f) p)).Authenticator.bIsAuthenticated
          = true)
    ∧ executionsOf i (Authenticate cfg 1 (FSimpleDelegate.bound i f) p).trace
        = executionsOf i p.trace + 1
    ∧ (Authenticate cfg 1 (FSimpleDelegate.bound i f) p).host = f p.host
    ∧ wardenCalls (Authenticate cfg 1 (FSimpleDelegate.bound i f) p).trace
        = wardenCalls p.trace + 1
    ∧ (Authenticate cfg 1 (FSimpleDelegate.bound i f) p).trace
        = p.trace ++ [EntitlementCheck, Event.Execute i] := by
  have hflag :
      (Authenticate cfg 1 (FSimpleDelegate.bound i f) p).Authenticator.bIsAuthenticated
        = true := by
    rw [Authenticate_flag, h]
    simp
  refine ⟨hflag, fun ops => runOps_flag_true cfg ops _ hflag, ?_, ?_, ?_, ?_⟩
  · rw [Authenticate_of_unauthenticated cfg 1 _ p h, iterate_callback_executionsOf]
    simp [executionsOf_append, executionsOf, Event.isExecuteOf, EntitlementCheck]
  · rw [Authenticate_of_unauthenticated cfg 1 _ p h, iterate_callback_host]
    rfl
  · rw [Authenticate_wardenCalls, h]
    rfl
  · rw [Authenticate_of_unauthenticated cfg 1 _ p h]
    simp [AuthorizedCallback, ExecuteIfBound]

/-- Witness of C3: a fresh gate on a Windows marketplace build, host state `5`, a
continuation that adds one; afterwards the gate is asked and called again. -/
theorem C3_witness :
    IsAuthenticated ⟨true, false, true⟩ (Process.fresh 5).Authenticator = false
    ∧ (Authenticate ⟨true, false, true⟩ 1 (FSimpleDelegate.bound 3 (fun n : Nat => n + 1))
        (Process.fresh 5)).host = 6
    ∧ (runOps ⟨true, false, true⟩ [Op.IsAuthenticated, Op.Authenticate 0 FSimpleDelegate.unbound]
        (Authenticate ⟨true, false, true⟩ 1 (FSimpleDelegate.bound 3 (fun n : Nat => n + 1))
          (Process.fresh 5))).Authenticator.bIsAuthenticated = true :=
  ⟨rfl,
   (C3_success_sets_flag_and_runs_continuation_once ⟨true, false, true⟩ 3
      (fun n : Nat => n + 1) (Process.fresh 5) rfl).2.2.2.1,
   (C3_success_sets_flag_and_runs_continuation_once ⟨true, false, true⟩ 3
      (fun n : Nat => n + 1) (Process.fresh 5) rfl).2.1 _⟩

/-- C4 as stated fails: on a build where the override holds, with the flag false and an
engine service whose callback never fires, `Authenticate` still executes the
continuation (here once, turning the host state `0` into `1`); only the flag stays
false. -/
theorem C4_counterexample_override_build_runs_continuation :
    (Process.fresh 0).Authenticator.bIsAuthenticated = false
    ∧ executionsOf 7 (Process.fresh 0).trace = 0
    ∧ executionsOf 7 (Authenticate ⟨false, false, true⟩ 0
        (FSimpleDelegate.bound 7 (fun n : Nat => n + 1)) (Process.fresh 0)).trace = 1
    ∧ (Authenticate ⟨false, false, true⟩ 0
        (FSimpleDelegate.bound 7 (fun n : Nat => n + 1)) (Process.fresh 0)).host = 1
    ∧ (Authenticate ⟨false, false, true⟩ 0
        (FSimpleDelegate.bound 7 (fun n : Nat => n + 1))
        (Process.fresh 0)).Authenticator.bIsAuthenticated = false := by
  decide

/-- C4, amended: when `Authenticate` is called while `IsAuthenticated()` is false and the
engine service never fires its authorized callback, then on return the host is
untouched, no delegate execution has been added to the trace (the only new entry is the
engine check), the gate object is unchanged and its flag is false: the whole process
state is the one before the call with that check appended to the trace, so nothing is
kept from which the continuation could run later.  The result of `Authenticate` is the
process state alone: there is no error value. -/
theorem C4_no_success_no_continuation_flag_stays_false {W : Type} (cfg : BuildConfig)
    (d : FSimpleDelegate W) (p : Process W)
    (h : IsAuthenticated cfg p.Authenticator = false) :
    (Authenticate cfg 0 d p).host = p.host
    ∧ (∀ i : Nat, executionsOf i (Authenticate cfg 0 d p).trace = executionsOf i p.trace)
    ∧ wardenCalls (Authenticate cfg 0 d p).trace = wardenCalls p.trace + 1
    ∧ (Authenticate cfg 0 d p).Authenticator = p.Authenticator
    ∧ (Authenticate cfg 0 d p).Authenticator.bIsAuthenticated = false
    ∧ Authenticate cfg 0 d p = { p with trace := p.trace ++ [EntitlementCheck] } := by
  have he := Authenticate_of_unauthenticated cfg 0 d p h
  have hf := (flag_of_not_IsAuthenticated cfg p.Authenticator h).2
  refine ⟨?_, ?_, ?_, ?_, ?_, he⟩
  · rw [he]; rfl
  · intro i
    rw [he]
    simp [executionsOf_append, executionsOf, Event.isExecuteOf, EntitlementCheck]
  · rw [Authenticate_wardenCalls, h]
    rfl
  · rw [he]; rfl
  · rw [he]; exact hf

/-- Witness of the amended C4: a fresh gate on a Windows marketplace build, host state
`0`, a continuation that would add one. -/
theorem C4_witness :
    IsAuthenticated ⟨true, false, true⟩ (Process.fresh 0).Authenticator = false
    ∧ (Authenticate ⟨true, false, true⟩ 0 (FSimpleDelegate.bound 7 (fun n : Nat => n + 1))
        (Process.fresh 0)).host = 0
    ∧ executionsOf 7 (Authenticate ⟨true, false, true⟩ 0
        (FSimpleDelegate.bound 7 (fun n : Nat => n + 1)) (Process.fresh 0)).trace = 0 :=
  ⟨rfl,
   (C4_no_success_no_continuation_flag_stays_false ⟨true, false, true⟩
      (FSimpleDelegate.bound 7 (fun n : Nat => n + 1)) (Process.fresh 0) rfl).1,
   (C4_no_success_no_continuation_flag_stays_false ⟨true, false, true⟩
      (FSimpleDelegate.bound 7 (fun n : Nat => n + 1)) (Process.fresh 0) rfl).2.1 7⟩

/-- C5: the flag is sticky.  For every configuration and every gate operation
(`Authenticate` with any delegate and any engine outcome, `IsAuthenticated`), a flag that
is true before the operation is true after it; and along every sequence of operations
from the fresh gate, once the flag is true after the first `m` operations it is true
after the first `n` operations for every `n ≥ m`, so it changes from false to true at
most once and never back. -/
theorem C5_flag_is_sticky {W : Type} (cfg : BuildConfig) :
    (∀ (op : Op W) (p : Process W), p.Authenticator.bIsAuthenticated = true →
        (op.run cfg p).Authenticator.bIsAuthenticated = true)
    ∧ (∀ (ops : List (Op W)) (host : W) (m n : Nat), m ≤ n →
        (runOps cfg (ops.take m) (Process.fresh host)).Authenticator.bIsAuthenticated = true →
        (runOps cfg (ops.take n) (Process.fresh host)).Authenticator.bIsAuthenticated = true) := by
  refine ⟨fun op p h => Op_run_flag_true cfg op p h, ?_⟩
  intro ops host m n hmn h
  have hsplit : ops.take n = ops.take m ++ (ops.take n).drop m := by
    have h1 := (List.take_append_drop m (ops.take n)).symm
    rw [List.take_take, Nat.min_eq_left hmn] at h1
    exact h1
  rw [hsplit, runOps_append]
  exact runOps_flag_true cfg _ _ h

/-- Witness of C5: on a Windows marketplace build, a failed check, a successful one, a
query and a further failed check; the flag is true after two operations and after
four. -/
theorem C5_witness :
    (runOps ⟨true, false, true⟩
        ([Op.Authenticate 0 FSimpleDelegate.unbound, Op.Authenticate 1 FSimpleDelegate.unbound,
          Op.IsAuthenticated, Op.Authenticate 0 FSimpleDelegate.unbound].take 2)
        (Process.fresh ())).Authenticator.bIsAuthenticated = true
    ∧ (runOps ⟨true, false, true⟩
        ([Op.Authenticate 0 FSimpleDelegate.unbound, Op.Authenticate 1 FSimpleDelegate.unbound,
          Op.IsAuthenticated, Op.Authenticate 0 FSimpleDelegate.unbound].take 4)
        (Process.fresh ())).Authenticator.bIsAuthenticated = true :=
  ⟨rfl,
   (C5_flag_is_sticky ⟨true, false, true⟩).2
     [Op.Authenticate 0 FSimpleDelegate.unbound, Op.Authenticate 1 FSimpleDelegate.unbound,
      Op.IsAuthenticated, Op.Authenticate 0 FSimpleDelegate.unbound] () 2 4 (by decide) rfl⟩

/-- C6: on a configuration where the override predicate holds, `IsAuthenticated` returns
true for every stored flag value, in particular for the default-constructed gate whose
flag is false; on the restricted configuration it returns exactly the stored flag. -/
theorem C6_IsAuthenticated_override_and_restricted (cfg : BuildConfig) (g : FSMAuthenticator) :
    (cfg.override = true → IsAuthenticated cfg g = true)
    ∧ (cfg.override = true →
        ({} : FSMAuthenticator).bIsAuthenticated = false
        ∧ IsAuthenticated cfg ({} : FSMAuthenticator) = true)
    ∧ (cfg.override = false → IsAuthenticated cfg g = g.bIsAuthenticated) := by
  obtain ⟨w, m, b⟩ := cfg
  cases w <;> cases m <;> cases b <;> simp [BuildConfig.override, IsAuthenticated]

/-- Witness of C6: a Linux build (override holds) with the flag false, and a Windows
marketplace build (restricted) with the flag false. -/
theorem C6_witness :
    IsAuthenticated ⟨false, false, true⟩ ⟨false⟩ = true
    ∧ IsAuthenticated ⟨true, false, true⟩ ⟨false⟩ = false :=
  ⟨(C6_IsAuthenticated_override_and_restricted ⟨false, false, true⟩ ⟨false⟩).1 rfl,
   (C6_IsAuthenticated_override_and_restricted ⟨true, false, true⟩ ⟨false⟩).2.2 rfl⟩

/-- C7: `IsAuthenticated` is a pure query.  For every configuration and process state the
state after the call is the state before (so the flag is unchanged and the trace has no
new engine check), and a second call made right after the first returns the same
value. -/
theorem C7_IsAuthenticated_is_pure {W : Type} (cfg : BuildConfig) (p : Process W) :
    (queryIsAuthenticated cfg p).2 = p
    ∧ (queryIsAuthenticated cfg p).2.Authenticator.bIsAuthenticated
        = p.Authenticator.bIsAuthenticated
    ∧ wardenCalls (queryIsAuthenticated cfg p).2.trace = wardenCalls p.trace
    ∧ (queryIsAuthenticated cfg (queryIsAuthenticated cfg p).2).1
        = (queryIsAuthenticated cfg p).1 :=
  ⟨rfl, rfl, rfl, rfl⟩

/-- C8: retry accounting on the restricted configuration, from a fresh gate, for calls
each resolved before the next (`c.1` is what the engine does if call `c` reaches it, a
check succeeds when it fires the callback).  Before any call the flag is true exactly
when an earlier call had a successful check; a call made while the flag is false makes
exactly one engine check; a call made after a success makes none.  Hence, when the first
success is at call index `pre.length`, the whole sequence makes `pre.length + 1` checks,
and when no check succeeds it makes as many checks as there are calls. -/
theorem C8_retry_accounting {W : Type} (cfg : BuildConfig) (host : W)
    (h : cfg.restricted = true) :
    (∀ (pre : List (Nat × FSimpleDelegate W)) (c : Nat × FSimpleDelegate W),
        ((AuthenticateAll cfg pre (Process.fresh host)).Authenticator.bIsAuthenticated = true
            ↔ ∃ x ∈ pre, 0 < x.1)
        ∧ ((AuthenticateAll cfg pre (Process.fresh host)).Authenticator.bIsAuthenticated = false →
            wardenCalls (Authenticate cfg c.1 c.2
                (AuthenticateAll cfg pre (Process.fresh host))).trace
              = wardenCalls (AuthenticateAll cfg pre (Process.fresh host)).trace + 1)
        ∧ ((∃ x ∈ pre, 0 < x.1) →
            wardenCalls (Authenticate cfg c.1 c.2
                (AuthenticateAll cfg pre (Process.fresh host))).trace
              = wardenCalls (AuthenticateAll cfg pre (Process.fresh host)).trace))
    ∧ (∀ (pre : List (Nat × FSimpleDelegate W)) (c : Nat × FSimpleDelegate W)
        (post : List (Nat × FSimpleDelegate W)),
        (∀ x ∈ pre, x.1 = 0) → 0 < c.1 →
        wardenCalls (AuthenticateAll cfg (pre ++ c :: post) (Process.fresh host)).trace
          = pre.length + 1)
    ∧ (∀ calls : List (Nat × FSimpleDelegate W), (∀ x ∈ calls, x.1 = 0) →
        wardenCalls (AuthenticateAll cfg calls (Process.fresh host)).trace = calls.length) := by
  have hfresh : (Process.fresh host).Authenticator.bIsAuthenticated = false := rfl
  have hiff : ∀ pre : List (Nat × FSimpleDelegate W),
      ((AuthenticateAll cfg pre (Process.fresh host)).Authenticator.bIsAuthenticated = true
        ↔ ∃ x ∈ pre, 0 < x.1) := by
    intro pre
    rw [AuthenticateAll_flag_restricted cfg h, hfresh]
    simp
  refine ⟨?_, ?_, ?_⟩
  · intro pre c
    refine ⟨hiff pre, ?_, ?_⟩
    · intro hf
      rw [Authenticate_wardenCalls, IsAuthenticated_restricted cfg _ h, hf]
      rfl
    · intro hex
      rw [Authenticate_wardenCalls, IsAuthenticated_restricted cfg _ h, (hiff pre).2 hex]
      rfl
  · intro pre c post hpre hc
    have hbefore := AuthenticateAll_wardenCalls_of_no_success cfg h pre _ hfresh hpre
    have hflagpre :
        (AuthenticateAll cfg pre (Process.fresh host)).Authenticator.bIsAuthenticated
          = false := by
      rw [AuthenticateAll_flag_restricted cfg h, hfresh]
      simp
      intro a b hab
      exact hpre (a, b) hab
    have hflag : (Authenticate cfg c.1 c.2
        (AuthenticateAll cfg pre (Process.fresh host))).Authenticator.bIsAuthenticated
          = true := by
      rw [Authenticate_flag, IsAuthenticated_restricted cfg _ h, hflagpre]
      simp [hc]
    rw [AuthenticateAll_append, AuthenticateAll_cons,
      AuthenticateAll_wardenCalls_of_flag cfg post _ hflag, Authenticate_wardenCalls,
      IsAuthenticated_restricted cfg _ h, hflagpre, hbefore]
    simp [Process.fresh, wardenCalls]
  · intro calls hall
    rw [AuthenticateAll_wardenCalls_of_no_success cfg h calls _ hfresh hall]
    simp [Process.fresh, wardenCalls]

/-- Witness of C8: on a Windows marketplace build, five calls whose checks would resolve
as fail, fail, success, fail, success make three engine checks (first success at index
2); two calls whose checks fail make two. -/
theorem C8_witness :
    BuildConfig.restricted ⟨true, false, true⟩ = true
    ∧ wardenCalls (AuthenticateAll ⟨true, false, true⟩
        ([(0, FSimpleDelegate.unbound), (0, FSimpleDelegate.unbound)]
          ++ (1, FSimpleDelegate.unbound)
            :: [(0, FSimpleDelegate.unbound), (1, FSimpleDelegate.unbound)])
        (Process.fresh ())).trace = 2 + 1
    ∧ wardenCalls (AuthenticateAll ⟨true, false, true⟩
        [(0, FSimpleDelegate.unbound), (0, FSimpleDelegate.unbound)]
        (Process.fresh ())).trace = 2 :=
  ⟨rfl,
   (C8_retry_accounting ⟨true, false, true⟩ () rfl).2.1
     [(0, FSimpleDelegate.unbound), (0, FSimpleDelegate.unbound)]
     (1, FSimpleDelegate.unbound)
     [(0, FSimpleDelegate.unbound), (1, FSimpleDelegate.unbound)]
     (by decide) (by decide),
   (C8_retry_accounting ⟨true, false, true⟩ () rfl).2.2
     [(0, FSimpleDelegate.unbound), (0, FSimpleDelegate.unbound)] (by decide)⟩

/-- C9: on a configuration where the override predicate holds, `Authenticate` in any
state invokes its delegate synchronously: a bound continuation `f` named `i` has been
applied to the host (`host = f p.host`) and recorded as the one new trace entry
(`trace = p.trace ++ [Execute i]`) when the call returns, an unbound delegate leaves the
state as it was, the gate object is not written and no engine check is added.  So for
every sequence of calls from a fresh gate the final host is the continuations applied
one after the other in call order, the final trace is exactly their executions in call
order, the number of engine checks is zero, and the stored flag is still false. -/
theorem C9_override_build_never_checks_never_writes {W : Type} (cfg : BuildConfig)
    (h : cfg.override = true) :
    (∀ (fires : Nat) (d : FSimpleDelegate W) (p : Process W),
        Authenticate cfg fires d p = ExecuteIfBound d p
        ∧ (Authenticate cfg fires d p).Authenticator = p.Authenticator
        ∧ wardenCalls (Authenticate cfg fires d p).trace = wardenCalls p.trace
        ∧ (∀ (i : Nat) (f : W → W), d = FSimpleDelegate.bound i f →
            (Authenticate cfg fires d p).host = f p.host
            ∧ (Authenticate cfg fires d p).trace = p.trace ++ [Event.Execute i]
            ∧ executionsOf i (Authenticate cfg fires d p).trace = executionsOf i p.trace + 1)
        ∧ (d = FSimpleDelegate.unbound → Authenticate cfg fires d p = p))
    ∧ (∀ (calls : List (Nat × FSimpleDelegate W)) (host : W),
        AuthenticateAll cfg calls (Process.fresh host)
          = calls.foldl (fun q c => ExecuteIfBound c.2 q) (Process.fresh host)
        ∧ wardenCalls (AuthenticateAll cfg calls (Process.fresh host)).trace = 0
        ∧ (AuthenticateAll cfg calls (Process.fresh host)).Authenticator.bIsAuthenticated
            = false
        ∧ (AuthenticateAll cfg calls (Process.fresh host)).host
            = calls.foldl (fun w c => c.2.invoke w) host
        ∧ (AuthenticateAll cfg calls (Process.fresh host)).trace
            = calls.foldl (fun t c => t ++ c.2.executions) []) := by
  have hstep : ∀ (fires : Nat) (d : FSimpleDelegate W) (p : Process W),
      Authenticate cfg fires d p = ExecuteIfBound d p := fun fires d p =>
    Authenticate_of_authenticated cfg fires d p (IsAuthenticated_override cfg _ h)
  have hall : ∀ (calls : List (Nat × FSimpleDelegate W)) (p : Process W),
      AuthenticateAll cfg calls p = calls.foldl (fun q c => ExecuteIfBound c.2 q) p
      ∧ wardenCalls (AuthenticateAll cfg calls p).trace = wardenCalls p.trace
      ∧ (AuthenticateAll cfg calls p).Authenticator = p.Authenticator
      ∧ (AuthenticateAll cfg calls p).host = calls.foldl (fun w c => c.2.invoke w) p.host
      ∧ (AuthenticateAll cfg calls p).trace
          = calls.foldl (fun t c => t ++ c.2.executions) p.trace := by
    intro calls
    induction calls with
    | nil => intro p; exact ⟨rfl, rfl, rfl, rfl, rfl⟩
    | cons c cs ih =>
        intro p
        rw [AuthenticateAll_cons, hstep]
        obtain ⟨h1, h2, h3, h4, h5⟩ := ih (ExecuteIfBound c.2 p)
        refine ⟨?_, ?_, ?_, ?_, ?_⟩
        · rw [h1]; rfl
        · rw [h2, ExecuteIfBound_wardenCalls]
        · rw [h3, ExecuteIfBound_flag]
        · rw [h4]
          obtain ⟨n, d⟩ := c
          cases d
          · rfl
          · rfl
        · rw [h5]
          obtain ⟨n, d⟩ := c
          cases d
          · simp [ExecuteIfBound, FSimpleDelegate.executions]
          · rfl
  refine ⟨?_, ?_⟩
  · intro fires d p
    rw [hstep]
    refine ⟨rfl, ExecuteIfBound_flag d p, ExecuteIfBound_wardenCalls d p, ?_, ?_⟩
    · intro i f hd
      subst hd
      refine ⟨rfl, rfl, ?_⟩
      simp [ExecuteIfBound, executionsOf_append, executionsOf, Event.isExecuteOf]
    · intro hd
      subst hd
      rfl
  · intro calls host
    obtain ⟨h1, h2, h3, h4, h5⟩ := hall calls (Process.fresh host)
    refine ⟨h1, ?_, ?_, h4, h5⟩
    · rw [h2]; rfl
    · rw [h3]; rfl

/-- Witness of C9: a Linux build, two calls with continuations adding one and doubling,
from host state `5`: both continuations have run, in order (host `12`, trace
`[Execute 1, Execute 2]`), with no engine check and the flag still false. -/
theorem C9_witness :
    BuildConfig.override ⟨false, false, true⟩ = true
    ∧ wardenCalls (AuthenticateAll ⟨false, false, true⟩
        [(1, FSimpleDelegate.bound 1 (fun n : Nat => n + 1)),
         (0, FSimpleDelegate.bound 2 (fun n : Nat => 2 * n))]
        (Process.fresh 5)).trace = 0
    ∧ (AuthenticateAll ⟨false, false, true⟩
        [(1, FSimpleDelegate.bound 1 (fun n : Nat => n + 1)),
         (0, FSimpleDelegate.bound 2 (fun n : Nat => 2 * n))]
        (Process.fresh 5)).Authenticator.bIsAuthenticated = false
    ∧ (AuthenticateAll ⟨false, false, true⟩
        [(1, FSimpleDelegate.bound 1 (fun n : Nat => n + 1)),
         (0, FSimpleDelegate.bound 2 (fun n : Nat => 2 * n))]
        (Process.fresh 5)).host = 12
    ∧ (AuthenticateAll ⟨false, false, true⟩
        [(1, FSimpleDelegate.bound 1 (fun n : Nat => n + 1)),
         (0, FSimpleDelegate.bound 2 (fun n : Nat => 2 * n))]
        (Process.fresh 5)).trace = [Event.Execute 1, Event.Execute 2]
    ∧ (Authenticate ⟨false, false, true⟩ 0 (FSimpleDelegate.bound 1 (fun n : Nat => n + 1))
        (Process.fresh 5)).host = 6 :=
  ⟨rfl,
   ((C9_override_build_never_checks_never_writes ⟨false, false, true⟩ rfl).2 _ 5).2.1,
   ((C9_override_build_never_checks_never_writes ⟨false, false, true⟩ rfl).2 _ 5).2.2.1,
   ((C9_override_build_never_checks_never_writes ⟨false, false, true⟩ rfl).2 _ 5).2.2.2.1,
   ((C9_override_build_never_checks_never_writes ⟨false, false, true⟩ rfl).2 _ 5).2.2.2.2,
   (((C9_override_build_never_checks_never_writes ⟨false, false, true⟩ rfl).1 0
      (FSimpleDelegate.bound 1 (fun n : Nat => n + 1)) (Process.fresh 5)).2.2.2.1
      1 (fun n : Nat => n + 1) rfl).1⟩

/-- C10: `ViewSystemInfo` opens no window itself and does not touch `GEditor`.  On the
restricted configuration with the flag false and an engine check that does not succeed
it leaves the editor as it was (no timer set, no dialog) and its delegate is not
executed.  Whenever it does change the timers set for the next tick, its delegate was
executed, the gate reports authenticated, and `GEditor` was non-null with a valid timer
manager.  And whenever the next tick, run with any value of `GEditor`, shows a different
list of modal windows than it would have without the call, then `GEditor` is non-null at
the tick and the same three facts hold. -/
theorem C10_support_dialog_only_behind_gate (cfg : BuildConfig) (fires : Nat)
    (p : Process EditorHost) :
    (ViewSystemInfo cfg fires p).host.ModalWindows = p.host.ModalWindows
    ∧ (ViewSystemInfo cfg fires p).host.GEditor = p.host.GEditor
    ∧ (cfg.restricted = true → p.Authenticator.bIsAuthenticated = false → fires = 0 →
        (ViewSystemInfo cfg fires p).host = p.host
        ∧ executionsOf ViewSystemInfoDelegateId (ViewSystemInfo cfg fires p).trace
            = executionsOf ViewSystemInfoDelegateId p.trace)
    ∧ ((ViewSystemInfo cfg fires p).host.NextTickTimers ≠ p.host.NextTickTimers →
        executionsOf ViewSystemInfoDelegateId p.trace
            < executionsOf ViewSystemInfoDelegateId (ViewSystemInfo cfg fires p).trace
        ∧ IsAuthenticated cfg (ViewSystemInfo cfg fires p).Authenticator = true
        ∧ ∃ e, p.host.GEditor = some e ∧ e.bTimerManagerValid = true)
    ∧ (∀ g : Option UEditorEngine,
        (Tick { (ViewSystemInfo cfg fires p).host with GEditor := g }).ModalWindows
            ≠ (Tick { p.host with GEditor := g }).ModalWindows →
        g.isSome = true
        ∧ executionsOf ViewSystemInfoDelegateId p.trace
            < executionsOf ViewSystemInfoDelegateId (ViewSystemInfo cfg fires p).trace
        ∧ IsAuthenticated cfg (ViewSystemInfo cfg fires p).Authenticator = true
        ∧ ∃ e, p.host.GEditor = some e ∧ e.bTimerManagerValid = true) := by
  obtain ⟨k, hhost, hexec, hauth, hk⟩ :=
    Authenticate_bound_summary cfg fires ViewSystemInfoDelegateId OnAuthenticated p
  have hframe := iterate_OnAuthenticated_frame k p.host
  have hwin : (ViewSystemInfo cfg fires p).host.ModalWindows = p.host.ModalWindows := by
    unfold ViewSystemInfo; rw [hhost]; exact hframe.2
  have hged : (ViewSystemInfo cfg fires p).host.GEditor = p.host.GEditor := by
    unfold ViewSystemInfo; rw [hhost]; exact hframe.1
  have hchange : (ViewSystemInfo cfg fires p).host ≠ p.host →
      executionsOf ViewSystemInfoDelegateId p.trace
          < executionsOf ViewSystemInfoDelegateId (ViewSystemInfo cfg fires p).trace
      ∧ IsAuthenticated cfg (ViewSystemInfo cfg fires p).Authenticator = true
      ∧ ∃ e, p.host.GEditor = some e ∧ e.bTimerManagerValid = true := by
    intro hne
    have hkpos : 0 < k := by
      rcases Nat.eq_zero_or_pos k with h0 | hpos
      · exfalso; apply hne; unfold ViewSystemInfo; rw [hhost, h0]; rfl
      · exact hpos
    refine ⟨?_, hauth hkpos, ?_⟩
    · unfold ViewSystemInfo; rw [hexec]; omega
    · by_contra hn
      apply hne
      unfold ViewSystemInfo
      rw [hhost]
      exact iterate_OnAuthenticated_of_not_valid k p.host hn
  refine ⟨hwin, hged, ?_, ?_, ?_⟩
  · intro hr hf h0
    have hq : IsAuthenticated cfg p.Authenticator = false := by
      rw [IsAuthenticated_restricted cfg _ hr, hf]
    have hk0 : k = 0 := by rw [hk hq, h0]
    constructor
    · unfold ViewSystemInfo; rw [hhost, hk0]; rfl
    · unfold ViewSystemInfo; rw [hexec, hk0]; rfl
  · intro hne
    apply hchange
    intro heq
    exact hne (by rw [heq])
  · intro g hne
    have hhne : (ViewSystemInfo cfg fires p).host ≠ p.host := by
      intro heq
      exact hne (by rw [heq])
    refine ⟨?_, hchange hhne⟩
    cases g with
    | some e => rfl
    | none =>
        exfalso
        apply hne
        rw [Tick_ModalWindows_of_null, Tick_ModalWindows_of_null]
        exact hwin

/-- Witness of C10: on a Windows marketplace build with a running editor and a fresh
gate, a failed check leaves the editor untouched, so the next tick opens no dialog. -/
theorem C10_witness :
    BuildConfig.restricted ⟨true, false, true⟩ = true
    ∧ (ViewSystemInfo ⟨true, false, true⟩ 0 (Process.fresh ⟨some ⟨true⟩, [], []⟩)).host
        = ⟨some ⟨true⟩, [], []⟩
    ∧ (Tick (ViewSystemInfo ⟨true, false, true⟩ 0
        (Process.fresh ⟨some ⟨true⟩, [], []⟩)).host).ModalWindows = []
    ∧ (Tick (ViewSystemInfo ⟨true, false, true⟩ 1
        (Process.fresh ⟨some ⟨true⟩, [], []⟩)).host).ModalWindows
        = [SWindow.SSMSupportDialog] :=
  ⟨rfl,
   ((C10_support_dialog_only_behind_gate ⟨true, false, true⟩ 0
      (Process.fresh ⟨some ⟨true⟩, [], []⟩)).2.2.1 rfl rfl rfl).1,
   by decide, by decide⟩

end LogicDriver
